import Mathlib

/-!
# GoProxLB balancing core: shallow embedding and verification

This file embeds the balancing decision engine of GoProxLB in Lean 4 and
proves (or refutes) the frozen claims about it.

Sources embedded:
* `internal/rules/engine.go` — tag parsing and placement validation
  (namespace `Rules`).
* `internal/balancer/advanced_balancer.go` — the advanced planner
  (namespace `Advanced`).
* the threshold balancer (`Balancer` in package `balancer`) (namespace
  `Threshold`).
* `internal/config/config.go` — thresholds, weights, aggressiveness presets.

Modelling conventions:
* Go `float32`/`float64` values are modelled as `ℚ` with exact arithmetic;
  all percentages and scores in the source stay in ranges where the
  rational model and the float computation order coincide for the claims
  at issue.  The one float operation with no rational counterpart,
  `math.Sqrt` in the standard-deviation computation, is modelled by
  keeping the radicand (`stdDevSq` below); no claim mentions stddev.
* Go's `time.Time` is a rational number of seconds; `time.Time.IsZero`
  becomes `Option ℚ` where the source treats the zero time as "unset".
* Go's truncating float-to-int conversion `int(x)` is `goTrunc`.
* Go maps are modelled as association lists in insertion order; the only
  place map iteration order is observable (a VM in several affinity
  groups) is flagged at the theorem that depends on it.
-/

/- The library marks the `Rat` arithmetic primitives `@[irreducible]`,
which blocks `decide`-style evaluation of concrete scenarios; the kernel
itself reduces them fine.  Restore the default reducibility for them. -/
attribute [local semireducible] Rat.mul Rat.add Rat.sub Rat.inv Rat.ofScientific

/-- Go's `int(x)` conversion on a float: truncation toward zero. -/
def goTrunc (q : ℚ) : ℤ := q.num.tdiv q.den

/-- `Except` success test (Go's `err == nil`). -/
def isOkE {ε α : Type} : Except ε α → Bool
  | .ok _ => true
  | .error _ => false

instance {ε α : Type} [DecidableEq ε] [DecidableEq α] : DecidableEq (Except ε α) :=
  fun x y =>
    match x, y with
    | .error a, .error b =>
      if h : a = b then isTrue (by rw [h]) else isFalse (fun hc => h (by cases hc; rfl))
    | .ok a, .ok b =>
      if h : a = b then isTrue (by rw [h]) else isFalse (fun hc => h (by cases hc; rfl))
    | .error _, .ok _ => isFalse (fun hc => by cases hc)
    | .ok _, .error _ => isFalse (fun hc => by cases hc)

/-- Go's `strings.TrimSpace`, modelled on the character list (ASCII
whitespace; the tags at issue contain none). -/
def goTrimChars : List Char → List Char
  | [] => []
  | c :: cs =>
    if c = ' ' ∨ c = '\t' ∨ c = '\n' ∨ c = '\r' then goTrimChars cs else c :: cs

/-- `strings.TrimSpace` on a string. -/
def goTrim (s : String) : String :=
  ⟨(goTrimChars (goTrimChars s.toList.reverse)).reverse⟩

/-- `strings.HasPrefix`, modelled on the character lists. -/
def hasPre (s p : String) : Bool :=
  p.toList.isPrefixOf s.toList

/-- `strings.TrimPrefix` (only applied after a `hasPre` check). -/
def dropPre (s p : String) : String :=
  ⟨s.toList.drop p.toList.length⟩

/-! ## Data model (`internal/models`) -/

namespace Models

/-- `models.CPUInfo` (fields other than `Usage` are inert for the core). -/
structure CPUInfo where
  usage : ℚ
  deriving DecidableEq, Repr

/-- `models.MemoryInfo` (only `Usage` is read by the balancers). -/
structure MemoryInfo where
  usage : ℚ
  deriving DecidableEq, Repr

/-- `models.StorageInfo` (only `Usage` is read by the balancers). -/
structure StorageInfo where
  usage : ℚ
  deriving DecidableEq, Repr

/-- `models.VM`.  `lastMoved` is `none` when the Go `LastMoved` time is
zero (`IsZero`), otherwise the timestamp in seconds. -/
structure VM where
  id : ℕ
  name : String
  node : String
  vmType : String
  status : String
  cpu : ℚ
  memory : ℤ
  tags : List String
  lastMoved : Option ℚ
  deriving DecidableEq, Repr

/-- `models.Node`. -/
structure Node where
  name : String
  status : String
  cpu : CPUInfo
  memory : MemoryInfo
  storage : StorageInfo
  vms : List VM
  deriving DecidableEq, Repr

/-- `models.NodeScore`. -/
structure NodeScore where
  node : String
  score : ℚ
  cpu : ℚ
  memory : ℚ
  storage : ℚ
  deriving DecidableEq, Repr

/-- `models.Migration` (the planner only sets the fields below). -/
structure Migration where
  vm : VM
  fromNode : String
  toNode : String
  status : String
  startTime : ℚ
  deriving DecidableEq, Repr

/-- `models.MigrationHistory`. -/
structure MigrationHistory where
  vmId : ℕ
  fromNode : String
  toNode : String
  timestamp : ℚ
  reason : String
  deriving DecidableEq, Repr

/-- `models.BalancingResult` (fields the core writes). -/
structure BalancingResult where
  sourceNode : String
  targetNode : String
  vm : VM
  reason : String
  resourceGain : ℚ
  timestamp : ℚ
  success : Bool
  errorMessage : Option String
  deriving DecidableEq, Repr

/-- `models.CapacityMetrics`.  `stdDevSq` holds `variance/n`, the value the
source passes to `math.Sqrt`; the square root itself has no exact rational
representative and no claim refers to the standard deviation. -/
structure CapacityMetrics where
  p50 : ℚ
  p90 : ℚ
  p95 : ℚ
  p99 : ℚ
  minP90 : ℚ
  maxP90 : ℚ
  mean : ℚ
  stdDevSq : ℚ
  deriving DecidableEq, Repr

/-- `models.AffinityGroup`. -/
structure AffinityGroup where
  tag : String
  vms : List VM
  nodes : List String
  deriving DecidableEq, Repr

/-- `models.AntiAffinityGroup`. -/
structure AntiAffinityGroup where
  tag : String
  vms : List VM
  nodes : List String
  deriving DecidableEq, Repr

/-- `models.PinnedVM`. -/
structure PinnedVM where
  vm : VM
  nodes : List String
  deriving DecidableEq, Repr

/-- `models.IgnoredVM`. -/
structure IgnoredVM where
  vm : VM
  tags : List String
  deriving DecidableEq, Repr

/-- `models.CPUPattern`. -/
structure CPUPattern where
  patType : String
  sustainedLevel : ℚ
  deriving DecidableEq, Repr

/-- `models.MemoryPattern`. -/
structure MemoryPattern where
  patType : String
  peakUsage : ℚ
  deriving DecidableEq, Repr

/-- `models.StoragePattern`. -/
structure StoragePattern where
  patType : String
  readIOPs : ℤ
  writeIOPs : ℤ
  deriving DecidableEq, Repr

/-- `models.Priority`. -/
inductive Priority where
  | realtime
  | interactive
  | background
  deriving DecidableEq, Repr

/-- `models.Criticality`. -/
inductive Criticality where
  | critical
  | important
  | normal
  deriving DecidableEq, Repr

/-- `models.LoadProfile` (mandatory fields; the optional ones are never
set by the balancer). -/
structure LoadProfile where
  cpuPattern : CPUPattern
  memoryPattern : MemoryPattern
  storagePattern : StoragePattern
  priority : Priority
  criticality : Criticality
  deriving DecidableEq, Repr

end Models

/-! ## Configuration (`internal/config/config.go`) -/

namespace Cfg

/-- `config.ResourceThresholds`. -/
structure ResourceThresholds where
  cpu : ℤ
  memory : ℤ
  storage : ℤ
  deriving DecidableEq, Repr

/-- `config.ResourceWeights`. -/
structure ResourceWeights where
  cpu : ℚ
  memory : ℚ
  storage : ℚ
  deriving DecidableEq, Repr

/-- The slice of `config.Config` the balancers read. -/
structure Config where
  balancerType : String
  aggressiveness : String
  thresholds : ResourceThresholds
  weights : ResourceWeights
  maintenanceNodes : List String
  loadProfilesEnabled : Bool
  capacityEnabled : Bool
  /-- `GetCapacityForecast()`: parsed forecast duration in hours, `none`
  when the duration string does not parse. -/
  forecastHours : Option ℚ
  deriving DecidableEq, Repr

/-- `config.AggressivenessConfig`; `cooldownSecs` is the Go
`time.Duration` in seconds. -/
structure AggressivenessConfig where
  cooldownSecs : ℚ
  minImprovement : ℚ
  stabilityWeight : ℚ
  capacityWeight : ℚ
  deriving DecidableEq, Repr

/-- `Config.GetAggressivenessConfig`: the three presets; any string other
than `"low"`/`"high"` falls into the `default` (medium) branch. -/
def getAggressivenessConfig (aggressiveness : String) : AggressivenessConfig :=
  if aggressiveness = "low" then
    { cooldownSecs := 4 * 3600, minImprovement := 15,
      stabilityWeight := 0.8, capacityWeight := 0.2 }
  else if aggressiveness = "high" then
    { cooldownSecs := 30 * 60, minImprovement := 5,
      stabilityWeight := 0.4, capacityWeight := 0.8 }
  else
    { cooldownSecs := 2 * 3600, minImprovement := 10,
      stabilityWeight := 0.6, capacityWeight := 0.5 }

/-- `setDefaults()` threshold defaults: cpu 80, memory 85, storage 90. -/
def defaultThresholds : ResourceThresholds := { cpu := 80, memory := 85, storage := 90 }

/-- `setDefaults()` weight defaults: cpu 1.0, memory 1.0, storage 0.5. -/
def defaultWeights : ResourceWeights := { cpu := 1, memory := 1, storage := 0.5 }

end Cfg

/-! ## Rule engine (`internal/rules/engine.go`) -/

namespace Rules

open Models

/-- The distinct error kinds of `ValidatePlacement` (the source returns
`fmt.Errorf` values with one distinct message per failed rule). -/
inductive RuleError where
  | ignored (vmName : String)
  | pinned (vmName : String) (nodes : List String) (target : String)
  | affinityBroken (vmName : String) (tag : String) (target : String)
  | antiAffinity (vmName : String) (tag : String) (target : String)
  deriving DecidableEq, Repr

/-- `rules.Engine`.  The Go maps (group name → group, vm id → entry) are
association lists in insertion order. -/
structure Engine where
  affinityGroups : List AffinityGroup
  antiAffinityGroups : List AntiAffinityGroup
  pinnedVMs : List PinnedVM
  ignoredVMs : List IgnoredVM
  deriving DecidableEq, Repr

/-- `rules.NewEngine`. -/
def newEngine : Engine :=
  { affinityGroups := [], antiAffinityGroups := [], pinnedVMs := [], ignoredVMs := [] }

/-- `addNodeToGroup`: append the node name if not already present. -/
def addNodeToGroup (nodes : List String) (nodeName : String) : List String :=
  if nodes.contains nodeName then nodes else nodes ++ [nodeName]

/-- `addVMToGroup` for affinity groups: create the group on first use,
then append the VM and track its node. -/
def addToAffinity (gs : List AffinityGroup) (vm : VM) (groupName : String) :
    List AffinityGroup :=
  if gs.any (·.tag = groupName) then
    gs.map fun g =>
      if g.tag = groupName then
        { g with vms := g.vms ++ [vm], nodes := addNodeToGroup g.nodes vm.node }
      else g
  else
    gs ++ [{ tag := groupName, vms := [vm], nodes := [vm.node] }]

/-- `addVMToGroup` for anti-affinity groups. -/
def addToAntiAffinity (gs : List AntiAffinityGroup) (vm : VM) (groupName : String) :
    List AntiAffinityGroup :=
  if gs.any (·.tag = groupName) then
    gs.map fun g =>
      if g.tag = groupName then
        { g with vms := g.vms ++ [vm], nodes := addNodeToGroup g.nodes vm.node }
      else g
  else
    gs ++ [{ tag := groupName, vms := [vm], nodes := [vm.node] }]

/-- `addPinningRule`: create the entry on first use, union the node. -/
def addPinningRule (ps : List PinnedVM) (vm : VM) (nodeName : String) : List PinnedVM :=
  if ps.any (·.vm.id = vm.id) then
    ps.map fun p =>
      if p.vm.id = vm.id then
        { p with nodes := if p.nodes.contains nodeName then p.nodes else p.nodes ++ [nodeName] }
      else p
  else
    ps ++ [{ vm := vm, nodes := [nodeName] }]

/-- `addIgnoreRule`: create the entry on first use, append the reason tag. -/
def addIgnoreRule (igs : List IgnoredVM) (vm : VM) (ignoreTag : String) : List IgnoredVM :=
  if igs.any (·.vm.id = vm.id) then
    igs.map fun ig =>
      if ig.vm.id = vm.id then { ig with tags := ig.tags ++ [ignoreTag] } else ig
  else
    igs ++ [{ vm := vm, tags := [ignoreTag] }]

/-- `processVM`: classify each (whitespace-trimmed) tag by prefix, in the
source's `switch` order. -/
def processVM (e : Engine) (vm : VM) : Engine :=
  vm.tags.foldl (fun e rawTag =>
    let tag := goTrim rawTag
    if hasPre tag "plb_affinity_" then
      { e with affinityGroups :=
          addToAffinity e.affinityGroups vm (dropPre tag "plb_affinity_") }
    else if hasPre tag "plb_anti_affinity_" then
      { e with antiAffinityGroups :=
          addToAntiAffinity e.antiAffinityGroups vm (dropPre tag "plb_anti_affinity_") }
    else if hasPre tag "plb_pin_" then
      { e with pinnedVMs := addPinningRule e.pinnedVMs vm (dropPre tag "plb_pin_") }
    else if hasPre tag "plb_ignore_" then
      { e with ignoredVMs := addIgnoreRule e.ignoredVMs vm (dropPre tag "plb_ignore_") }
    else e) e

/-- `Engine.ProcessVMs`: rebuild all rule state from the VM list. -/
def processVMs (vms : List VM) : Engine :=
  vms.foldl processVM newEngine

/-- `Engine.IsIgnored`. -/
def isIgnored (e : Engine) (vmId : ℕ) : Bool :=
  e.ignoredVMs.any (·.vm.id = vmId)

/-- `Engine.IsPinned`. -/
def isPinned (e : Engine) (vmId : ℕ) : Bool :=
  e.pinnedVMs.any (·.vm.id = vmId)

/-- `Engine.GetPinnedNodes`. -/
def getPinnedNodes (e : Engine) (vmId : ℕ) : List String :=
  match e.pinnedVMs.find? (·.vm.id = vmId) with
  | some p => p.nodes
  | none => []

/-- `validateIgnoreRules`. -/
def validateIgnoreRules (e : Engine) (vm : VM) : Except RuleError Unit :=
  if isIgnored e vm.id then .error (.ignored vm.name) else .ok ()

/-- `validatePinningRules`. -/
def validatePinningRules (e : Engine) (vm : VM) (targetNode : String) :
    Except RuleError Unit :=
  if ¬ isPinned e vm.id then .ok ()
  else if (getPinnedNodes e vm.id).contains targetNode then .ok ()
  else .error (.pinned vm.name (getPinnedNodes e vm.id) targetNode)

/-- `checkAffinityConstraints`: ok when another group member is on the
target; error when some member is elsewhere and none on the target; ok
when the VM is the group's only member. -/
def checkAffinityConstraints (vm : VM) (targetNode : String) (g : AffinityGroup) :
    Except RuleError Unit :=
  if g.vms.any (fun o => o.id ≠ vm.id ∧ o.node = targetNode) then .ok ()
  else if g.vms.any (fun o => o.id ≠ vm.id ∧ o.node ≠ targetNode) then
    .error (.affinityBroken vm.name g.tag targetNode)
  else .ok ()

/-- `checkAntiAffinityConstraints`: error when any other group member is
on the target. -/
def checkAntiAffinityConstraints (vm : VM) (targetNode : String)
    (g : AntiAffinityGroup) : Except RuleError Unit :=
  if g.vms.any (fun o => o.id ≠ vm.id ∧ o.node = targetNode) then
    .error (.antiAffinity vm.name g.tag targetNode)
  else .ok ()

/-- `validateAffinityRules`: the source returns the check of the first
group (in map iteration order) containing the VM; the list order stands
in for the map order. -/
def validateAffinityRules (e : Engine) (vm : VM) (targetNode : String) :
    Except RuleError Unit :=
  match e.affinityGroups.find? (fun g => g.vms.any (·.id = vm.id)) with
  | some g => checkAffinityConstraints vm targetNode g
  | none => .ok ()

/-- `validateAntiAffinityRules`. -/
def validateAntiAffinityRules (e : Engine) (vm : VM) (targetNode : String) :
    Except RuleError Unit :=
  match e.antiAffinityGroups.find? (fun g => g.vms.any (·.id = vm.id)) with
  | some g => checkAntiAffinityConstraints vm targetNode g
  | none => .ok ()

/-- `Engine.ValidatePlacement`: ignore, pin, affinity, anti-affinity, in
that order, stopping at the first failure. -/
def validatePlacement (e : Engine) (vm : VM) (targetNode : String) :
    Except RuleError Unit :=
  match validateIgnoreRules e vm with
  | .error err => .error err
  | .ok _ =>
    match validatePinningRules e vm targetNode with
    | .error err => .error err
    | .ok _ =>
      match validateAffinityRules e vm targetNode with
      | .error err => .error err
      | .ok _ => validateAntiAffinityRules e vm targetNode

/-- `Engine.GetValidTargetNodes`: filter the candidates under
`validatePlacement`. -/
def getValidTargetNodes (e : Engine) (vm : VM) (availableNodes : List String) :
    List String :=
  availableNodes.filter (fun n => isOkE (validatePlacement e vm n))

end Rules

/-! ## Advanced balancer (`internal/balancer/advanced_balancer.go`) -/

namespace Advanced

open Models Rules Cfg

/-- The platform client (`proxmox.ClientInterface`) as the balancer sees
it: a fixed snapshot answer for `GetNodes`, per-node historical series
(cpu, memory) for `GetNodeHistoricalData`, and a success verdict for each
`MigrateVM` call. -/
structure Client where
  getNodes : Except String (List Node)
  histData : String → String → Except String (List (ℚ × ℚ))
  migrateOk : ℕ → String → String → Bool

/-- The mutable fields of `balancer.AdvancedBalancer`. -/
structure AdvancedBalancer where
  engine : Engine
  lastRun : ℚ
  migrationHistory : List MigrationHistory
  loadProfiles : List (ℕ × LoadProfile)
  capacityMetrics : List (String × CapacityMetrics)
  deriving DecidableEq, Repr

/-- `NewAdvancedBalancer`: fresh engine (never fed any VMs by this
balancer), zero last-run time, empty history and maps. -/
def newAdvancedBalancer : AdvancedBalancer :=
  { engine := newEngine, lastRun := 0, migrationHistory := [],
    loadProfiles := [], capacityMetrics := [] }

/-- Index used by `calculatePercentiles`: `int(nMinus1*p + 0.5)`, then
upper-clamped to `n-1`. -/
def pctIdx (n : ℕ) (p : ℚ) : ℕ :=
  let i := (⌊((n : ℚ) - 1) * p + 0.5⌋).toNat
  if i ≥ n then n - 1 else i

/-- `calculatePercentiles`: sort ascending, pick the rounded-index
elements, single-pass mean and population variance.  `stdDevSq` is the
radicand the source feeds to `math.Sqrt`. -/
def calculatePercentiles (values : List ℚ) : CapacityMetrics :=
  if values.isEmpty then
    { p50 := 0, p90 := 0, p95 := 0, p99 := 0, minP90 := 0, maxP90 := 0,
      mean := 0, stdDevSq := 0 }
  else
    let sorted := List.insertionSort (· ≤ ·) values
    let n := sorted.length
    let p50 := sorted.getD (pctIdx n 0.5) 0
    let p90 := sorted.getD (pctIdx n 0.9) 0
    let p95 := sorted.getD (pctIdx n 0.95) 0
    let p99 := sorted.getD (pctIdx n 0.99) 0
    let minP90 := sorted.getD (pctIdx n 0.1) 0
    let mean := sorted.sum / (n : ℚ)
    let variance := (sorted.map (fun v => (v - mean) * (v - mean))).sum
    { p50 := p50, p90 := p90, p95 := p95, p99 := p99,
      minP90 := minP90, maxP90 := p90, mean := mean, stdDevSq := variance / (n : ℚ) }

/-- Lookup in the `capacityMetrics` map (keys are kept unique by
`setMetrics`). -/
def lookupMetrics (m : List (String × CapacityMetrics)) (name : String) :
    Option CapacityMetrics :=
  (m.find? (·.1 = name)).map (·.2)

/-- Map write `b.capacityMetrics[name] = v`. -/
def setMetrics (m : List (String × CapacityMetrics)) (name : String)
    (v : CapacityMetrics) : List (String × CapacityMetrics) :=
  if m.any (·.1 = name) then
    m.map (fun kv => if kv.1 = name then (name, v) else kv)
  else m ++ [(name, v)]

/-- `calculateResourceScore`: scaled-integer weighted mean of cpu, memory
and storage usage, with the P90 blend when capacity metrics exist. -/
def calculateResourceScore (cfg : Cfg.Config)
    (capacityMetrics : List (String × CapacityMetrics)) (node : Node) : ℚ :=
  let cpuInt0 := goTrunc (node.cpu.usage * 100)
  let memoryInt0 := goTrunc (node.memory.usage * 100)
  let storageInt := goTrunc (node.storage.usage * 100)
  let blended :=
    match lookupMetrics capacityMetrics node.name with
    | some metrics =>
      if metrics.p90 > 0 then
        let predictiveCPU := metrics.p90 * 100
        let predictiveMemory := metrics.p90 * 100
        (goTrunc ((node.cpu.usage * 0.7 + predictiveCPU * 0.3) * 100),
         goTrunc ((node.memory.usage * 0.7 + predictiveMemory * 0.3) * 100))
      else (cpuInt0, memoryInt0)
    | none => (cpuInt0, memoryInt0)
  let cpuWeight := goTrunc (cfg.weights.cpu * 1000)
  let memoryWeight := goTrunc (cfg.weights.memory * 1000)
  let storageWeight := goTrunc (cfg.weights.storage * 1000)
  let weightedSum := blended.1 * cpuWeight + blended.2 * memoryWeight +
    storageInt * storageWeight
  let totalWeight := cpuWeight + memoryWeight + storageWeight
  ((weightedSum : ℚ) / (totalWeight : ℚ)) / 100

/-- `calculateStabilityScore`: 10 per migration touching the node in the
last hour, minus an age bonus capped at 20 for 24h+ average VM age. -/
def calculateStabilityScore (hist : List MigrationHistory) (now : ℚ)
    (node : Node) : ℚ :=
  let oneHourAgo := now - 3600
  let recentMigrations := (hist.filter (fun m =>
    (m.fromNode = node.name ∨ m.toNode = node.name) ∧ m.timestamp > oneHourAgo)).length
  let ages := node.vms.filterMap (fun vm => vm.lastMoved.map (fun t => (now - t) / 3600))
  let averageAge := if ages.length > 0 then ages.sum / (ages.length : ℚ) else 0
  let migrationPenalty := (recentMigrations : ℚ) * 10
  let ageBonus := if averageAge > 24 then 20 else (averageAge / 24) * 20
  migrationPenalty - ageBonus

/-- `calculateMigrationCost`: `float64(int(cpu)+int(mem))/200`, plus 10
when either truncated percentage exceeds 80. -/
def calculateMigrationCost (node : Node) : ℚ :=
  let cpuInt := goTrunc node.cpu.usage
  let memoryInt := goTrunc node.memory.usage
  let baseCost := ((cpuInt + memoryInt : ℤ) : ℚ) / 200
  if cpuInt > 80 ∨ memoryInt > 80 then baseCost + 10 else baseCost

/-- `calculateCapacityScoreSimplified`: current usage stands in for P90. -/
def calculateCapacityScoreSimplified (cfg : Cfg.Config) (node : Node) : ℚ :=
  let cpuScore := if node.cpu.usage > 0 then 100 - node.cpu.usage else 0
  let memoryScore := if node.memory.usage > 0 then 100 - node.memory.usage else 0
  (cpuScore * 0.6 + memoryScore * 0.4) *
    (getAggressivenessConfig cfg.aggressiveness).capacityWeight

/-- `calculateCapacityScore`: headroom above P90 (both components use the
CPU P90, as in the source), weighted by the aggressiveness preset. -/
def calculateCapacityScore (cfg : Cfg.Config)
    (capacityMetrics : List (String × CapacityMetrics)) (node : Node) : ℚ :=
  match lookupMetrics capacityMetrics node.name with
  | none => calculateCapacityScoreSimplified cfg node
  | some metrics =>
    let cpuScore := if metrics.p90 > 0 then 100 - metrics.p90 else 0
    let memoryScore := if metrics.p90 > 0 then 100 - metrics.p90 else 0
    (cpuScore * 0.6 + memoryScore * 0.4) *
      (getAggressivenessConfig cfg.aggressiveness).capacityWeight

/-- `calculateAdvancedNodeScores`: 0.4·resource + 0.2·stability +
0.3·capacity + 0.1·cost, sorted ascending by score (the Go `sort.Slice`
is replaced by a stable sort; no claim depends on tie order). -/
def calculateAdvancedNodeScores (cfg : Cfg.Config) (hist : List MigrationHistory)
    (capacityMetrics : List (String × CapacityMetrics)) (now : ℚ)
    (nodes : List Node) : List NodeScore :=
  let scores := nodes.map (fun node =>
    let resourceScore := calculateResourceScore cfg capacityMetrics node
    let stabilityScore := calculateStabilityScore hist now node
    let migrationCost := calculateMigrationCost node
    let capacityScore := calculateCapacityScore cfg capacityMetrics node
    { node := node.name,
      score := resourceScore * 0.4 + stabilityScore * 0.2 +
        capacityScore * 0.3 + migrationCost * 0.1,
      cpu := node.cpu.usage, memory := node.memory.usage,
      storage := node.storage.usage : NodeScore })
  List.insertionSort (fun a b => a.score ≤ b.score) scores

/-- `canMigrateVM`: not moved within the last hour (VM timestamp), no
history entry within the last hour, and `ValidatePlacement` against the
*source* node passes. -/
def canMigrateVM (e : Engine) (hist : List MigrationHistory) (now : ℚ)
    (vm : VM) (sourceNode : String) : Bool :=
  let oneHourAgo := now - 3600
  let recentlyMoved :=
    match vm.lastMoved with
    | some t => decide (t > oneHourAgo)
    | none => false
  if recentlyMoved then false
  else if hist.any (fun m => m.vmId = vm.id ∧ m.timestamp > oneHourAgo) then false
  else isOkE (validatePlacement e vm sourceNode)

/-- `findBestTargetNode`: first score-ordered node that is not the source
and survives `GetValidTargetNodes`; `""` when none. -/
def findBestTargetNode (e : Engine) (vm : VM) (nodeScores : List NodeScore)
    (sourceNode : String) : String :=
  let availableNodes := (nodeScores.filter (·.node ≠ sourceNode)).map (·.node)
  let validNodes := getValidTargetNodes e vm availableNodes
  match nodeScores.find? (fun s => s.node ≠ sourceNode ∧ validNodes.contains s.node) with
  | some s => s.node
  | none => ""

/-- Lookup in the score map `calculateResourceGain` builds (Go map writes:
the last slice entry with a name wins). -/
def scoreLookup (nodeScores : List NodeScore) (name : String) : Option ℚ :=
  (nodeScores.reverse.find? (·.node = name)).map (·.score)

/-- `calculateResourceGain`: source score minus target score, 0 when
either node is missing from the score map. -/
def calculateResourceGain (sourceNode targetNode : String)
    (nodeScores : List NodeScore) : ℚ :=
  match scoreLookup nodeScores sourceNode, scoreLookup nodeScores targetNode with
  | some s, some t => s - t
  | _, _ => 0

/-- Overload test of `findOptimalMigrations` (truncating int comparison
against the integer thresholds). -/
def isOverloaded (cfg : Cfg.Config) (node : Node) : Bool :=
  goTrunc node.cpu.usage > cfg.thresholds.cpu ∨
  goTrunc node.memory.usage > cfg.thresholds.memory ∨
  goTrunc node.storage.usage > cfg.thresholds.storage

/-- The migration record `findOptimalMigrations` emits. -/
def mkMigration (vm : VM) (src dst : String) (now : ℚ) : Migration :=
  { vm := vm, fromNode := src, toNode := dst, status := "pending", startTime := now }

/-- Inner VM loop of `findOptimalMigrations`; the `Bool` is true when the
5-migration cap fired (the Go code returns from the whole function). -/
def planVMs (e : Engine) (hist : List MigrationHistory) (now : ℚ)
    (nodeScores : List NodeScore) (agg : AggressivenessConfig) (srcName : String) :
    List VM → List Migration → List Migration × Bool
  | [], migrations => (migrations, false)
  | vm :: rest, migrations =>
    if vm.status ≠ "running" then
      planVMs e hist now nodeScores agg srcName rest migrations
    else if ¬ canMigrateVM e hist now vm srcName then
      planVMs e hist now nodeScores agg srcName rest migrations
    else
      let targetNode := findBestTargetNode e vm nodeScores srcName
      if targetNode = "" then
        planVMs e hist now nodeScores agg srcName rest migrations
      else
        let gain := calculateResourceGain srcName targetNode nodeScores
        if gain < agg.minImprovement then
          planVMs e hist now nodeScores agg srcName rest migrations
        else
          let migrations' := migrations ++ [mkMigration vm srcName targetNode now]
          if migrations'.length ≥ 5 then (migrations', true)
          else planVMs e hist now nodeScores agg srcName rest migrations'

/-- Outer node loop of `findOptimalMigrations`. -/
def planNodes (e : Engine) (hist : List MigrationHistory) (now : ℚ)
    (nodeScores : List NodeScore) (agg : AggressivenessConfig) :
    List Node → List Migration → List Migration
  | [], migrations => migrations
  | node :: rest, migrations =>
    match planVMs e hist now nodeScores agg node.name node.vms migrations with
    | (m, true) => m
    | (m, false) => planNodes e hist now nodeScores agg rest m

/-- `findOptimalMigrations`: iterate overloaded nodes in input order,
emitting at most 5 migrations. -/
def findOptimalMigrations (cfg : Cfg.Config) (e : Engine)
    (hist : List MigrationHistory) (now : ℚ) (nodes : List Node)
    (nodeScores : List NodeScore) (agg : AggressivenessConfig) : List Migration :=
  planNodes e hist now nodeScores agg (nodes.filter (isOverloaded cfg)) []

/-- `needsBalancing`: some node exceeds a configured threshold (float
comparison, no truncation here). -/
def needsBalancing (cfg : Cfg.Config) (nodes : List Node) : Bool :=
  nodes.any (fun n =>
    n.cpu.usage > (cfg.thresholds.cpu : ℚ) ∨
    n.memory.usage > (cfg.thresholds.memory : ℚ) ∨
    n.storage.usage > (cfg.thresholds.storage : ℚ))

/-- `isInMaintenance`. -/
def isInMaintenance (cfg : Cfg.Config) (nodeName : String) : Bool :=
  cfg.maintenanceNodes.contains nodeName

/-- `filterAvailableNodes`: online and not in maintenance. -/
def filterAvailableNodes (cfg : Cfg.Config) (nodes : List Node) : List Node :=
  nodes.filter (fun n => n.status = "online" ∧ ¬ isInMaintenance cfg n.name)

/-- `analyzeCPUPatternFromHistory` (a placeholder constant in the source). -/
def analyzeCPUPatternFromHistory : CPUPattern :=
  { patType := "sustained", sustainedLevel := 90 }

/-- `analyzeMemoryPatternFromHistory` (placeholder constant). -/
def analyzeMemoryPatternFromHistory : MemoryPattern :=
  { patType := "sustained", peakUsage := 90 }

/-- `analyzeStoragePatternFromHistory` (placeholder constant). -/
def analyzeStoragePatternFromHistory : StoragePattern :=
  { patType := "sustained", readIOPs := 1500, writeIOPs := 700 }

/-- `determinePriority`: first matching tag wins, else derive from the
CPU pattern. -/
def determinePriority (vm : VM) (cpu : CPUPattern) : Priority :=
  match vm.tags.findSome? (fun tag =>
    if tag = "realtime" ∨ tag = "critical" ∨ tag = "high-priority" then
      some Priority.realtime
    else if tag = "interactive" ∨ tag = "user-facing" then
      some Priority.interactive
    else if tag = "background" ∨ tag = "batch" ∨ tag = "low-priority" then
      some Priority.background
    else none) with
  | some p => p
  | none =>
    if cpu.patType = "sustained" ∧ cpu.sustainedLevel > 70 then Priority.realtime
    else if cpu.patType = "burst" then Priority.interactive
    else Priority.background

/-- `determineCriticality`: first matching tag wins, else derive from
priority. -/
def determineCriticality (vm : VM) (priority : Priority) : Criticality :=
  match vm.tags.findSome? (fun tag =>
    if tag = "critical" ∨ tag = "essential" then some Criticality.critical
    else if tag = "important" ∨ tag = "production" then some Criticality.important
    else none) with
  | some c => c
  | none =>
    match priority with
    | .realtime => .critical
    | .interactive => .important
    | .background => .normal

/-- `analyzeLoadProfile`. -/
def analyzeLoadProfile (vm : VM) : LoadProfile :=
  let cpuPattern := analyzeCPUPatternFromHistory
  let priority := determinePriority vm cpuPattern
  { cpuPattern := cpuPattern,
    memoryPattern := analyzeMemoryPatternFromHistory,
    storagePattern := analyzeStoragePatternFromHistory,
    priority := priority,
    criticality := determineCriticality vm priority }

/-- Map write `b.loadProfiles[id] = p`. -/
def setProfile (ps : List (ℕ × LoadProfile)) (id : ℕ) (p : LoadProfile) :
    List (ℕ × LoadProfile) :=
  if ps.any (·.1 = id) then
    ps.map (fun kv => if kv.1 = id then (id, p) else kv)
  else ps ++ [(id, p)]

/-- `updateLoadProfiles`: profile every running VM. -/
def updateLoadProfiles (profiles : List (ℕ × LoadProfile)) (nodes : List Node) :
    List (ℕ × LoadProfile) :=
  nodes.foldl (fun ps node =>
    node.vms.foldl (fun ps vm =>
      if vm.status = "running" then setProfile ps vm.id (analyzeLoadProfile vm)
      else ps) ps) profiles

/-- Timeframe choice in `updateCapacityMetrics` (from the parsed capacity
forecast; `"day"` when the duration does not parse). -/
def capacityTimeframe (cfg : Cfg.Config) : String :=
  match cfg.forecastHours with
  | some f => if f ≥ 7 * 24 then "week" else if f ≥ 24 then "day" else "hour"
  | none => "day"

/-- `updateCapacityMetricsSimplified`: single-sample series from current
CPU usage. -/
def updateCapacityMetricsSimplified (m : List (String × CapacityMetrics))
    (node : Node) : List (String × CapacityMetrics) :=
  setMetrics m node.name (calculatePercentiles [node.cpu.usage])

/-- `updateCapacityMetrics`: percentiles of the historical CPU series per
node, falling back to the simplified single-sample form on fetch error
(the memory percentiles are computed and discarded by the source). -/
def updateCapacityMetrics (client : Client) (cfg : Cfg.Config)
    (m : List (String × CapacityMetrics)) (nodes : List Node) :
    List (String × CapacityMetrics) :=
  nodes.foldl (fun m node =>
    match client.histData node.name (capacityTimeframe cfg) with
    | .error _ => updateCapacityMetricsSimplified m node
    | .ok data => setMetrics m node.name (calculatePercentiles (data.map (·.1)))) m

/-- `executeMigrations`: issue each migration; failures are recorded and
do not abort the plan. -/
def executeMigrations (client : Client) (now : ℚ) (migrations : List Migration) :
    List BalancingResult :=
  migrations.map (fun m =>
    let ok := client.migrateOk m.vm.id m.fromNode m.toNode
    { sourceNode := m.fromNode, targetNode := m.toNode, vm := m.vm,
      reason := "load_balancing", resourceGain := 10, timestamp := now,
      success := ok,
      errorMessage := if ok then none else some "migration failed" })

/-- `updateMigrationHistory`: append an entry per successful result, then
drop entries older than 24 hours. -/
def updateMigrationHistory (hist : List MigrationHistory)
    (results : List BalancingResult) (now : ℚ) : List MigrationHistory :=
  let appended := hist ++ (results.filter (·.success)).map (fun r =>
    { vmId := r.vm.id, fromNode := r.sourceNode, toNode := r.targetNode,
      timestamp := r.timestamp, reason := r.reason : MigrationHistory })
  appended.filter (fun e => e.timestamp > now - 86400)

/-- `AdvancedBalancer.Run`: one balancing cycle.  Returns the result list
(or the error) together with the post-cycle balancer state. -/
def run (client : Client) (cfg : Cfg.Config) (b : AdvancedBalancer) (now : ℚ)
    (force : Bool) : Except String (List BalancingResult) × AdvancedBalancer :=
  match client.getNodes with
  | .error e => (.error ("failed to get nodes: " ++ e), b)
  | .ok nodes =>
    let availableNodes := filterAvailableNodes cfg nodes
    if availableNodes.length < 2 then
      (.error "insufficient available nodes for balancing", b)
    else
      let b1 :=
        if cfg.loadProfilesEnabled then
          { b with loadProfiles := updateLoadProfiles b.loadProfiles availableNodes }
        else b
      let b2 :=
        if cfg.capacityEnabled then
          { b1 with capacityMetrics :=
              updateCapacityMetrics client cfg b1.capacityMetrics availableNodes }
        else b1
      if ¬ force ∧ ¬ needsBalancing cfg availableNodes then
        (.ok [], b2)
      else
        let aggConfig := getAggressivenessConfig cfg.aggressiveness
        if ¬ force ∧ now - b.lastRun < aggConfig.cooldownSecs then
          (.ok [], b2)
        else
          let nodeScores := calculateAdvancedNodeScores cfg b2.migrationHistory
            b2.capacityMetrics now availableNodes
          let migrations := findOptimalMigrations cfg b2.engine
            b2.migrationHistory now availableNodes nodeScores aggConfig
          let results := executeMigrations client now migrations
          let b3 := { b2 with
            migrationHistory := updateMigrationHistory b2.migrationHistory results now,
            lastRun := now }
          (.ok results, b3)

end Advanced

/-! ## Threshold balancer (`balancer.Balancer`) -/

namespace Threshold

open Models Rules Cfg

/-- The mutable fields of `balancer.Balancer`; the engine is rebuilt by
`ProcessVMs` on every run. -/
structure Balancer where
  engine : Engine
  lastRun : ℚ
  deriving DecidableEq, Repr

/-- `NewBalancer`. -/
def newBalancer : Balancer := { engine := newEngine, lastRun := 0 }

/-- `isInMaintenance` (threshold balancer's own copy). -/
def isInMaintenance (cfg : Cfg.Config) (nodeName : String) : Bool :=
  cfg.maintenanceNodes.contains nodeName

/-- `filterAvailableNodes`: the threshold balancer filters only
maintenance nodes — it does NOT check `Status == "online"`. -/
def filterAvailableNodes (cfg : Cfg.Config) (nodes : List Node) : List Node :=
  nodes.filter (fun n => ¬ isInMaintenance cfg n.name)

/-- `needsBalancing`: some non-maintenance node exceeds a threshold. -/
def needsBalancing (cfg : Cfg.Config) (nodes : List Node) : Bool :=
  nodes.any (fun n =>
    ¬ isInMaintenance cfg n.name ∧
    (n.cpu.usage > (cfg.thresholds.cpu : ℚ) ∨
     n.memory.usage > (cfg.thresholds.memory : ℚ) ∨
     n.storage.usage > (cfg.thresholds.storage : ℚ)))

/-- `calculateNodeScore`: normalized (0–1) weighted mean. -/
def calculateNodeScore (cfg : Cfg.Config) (node : Node) : NodeScore :=
  let cpuScore := node.cpu.usage / 100
  let memoryScore := node.memory.usage / 100
  let storageScore := node.storage.usage / 100
  let weightedScore := cpuScore * cfg.weights.cpu + memoryScore * cfg.weights.memory +
    storageScore * cfg.weights.storage
  let totalWeight := cfg.weights.cpu + cfg.weights.memory + cfg.weights.storage
  { node := node.name, score := weightedScore / totalWeight,
    cpu := cpuScore, memory := memoryScore, storage := storageScore }

/-- `calculateNodeScores`: score all nodes, sort ascending. -/
def calculateNodeScores (cfg : Cfg.Config) (nodes : List Node) : List NodeScore :=
  List.insertionSort (fun a b => a.score ≤ b.score) (nodes.map (calculateNodeScore cfg))

/-- `findBestTargetNode` (threshold): rule-valid candidates, best score
first. -/
def findBestTargetNode (e : Engine) (vm : VM) (nodeScores : List NodeScore) : String :=
  let candidates := (nodeScores.filter (·.node ≠ vm.node)).map (·.node)
  let validNodes := getValidTargetNodes e vm candidates
  if validNodes.isEmpty then ""
  else
    match nodeScores.find? (fun s => validNodes.contains s.node) with
    | some s => s.node
    | none => ""

/-- `calculateResourceGain` (threshold): zero-value scores when a node is
absent, last slice match wins, clamped at 0.  (The source also takes the
VM as an unused argument.) -/
def calculateResourceGain (sourceNode targetNode : String)
    (nodeScores : List NodeScore) : ℚ :=
  let sourceScore := (((nodeScores.reverse.find? (·.node = sourceNode))).map (·.score)).getD 0
  let targetScore := (((nodeScores.reverse.find? (·.node = targetNode))).map (·.score)).getD 0
  max 0 (sourceScore - targetScore)

/-- `findMigrations`: every overloaded non-maintenance node contributes
one migration per movable VM — there is NO cap on the plan size. -/
def findMigrations (cfg : Cfg.Config) (e : Engine) (now : ℚ) (nodes : List Node)
    (nodeScores : List NodeScore) : List Migration :=
  let sourceNodes := nodes.filter (fun n =>
    ¬ isInMaintenance cfg n.name ∧
    (n.cpu.usage > (cfg.thresholds.cpu : ℚ) ∨
     n.memory.usage > (cfg.thresholds.memory : ℚ) ∨
     n.storage.usage > (cfg.thresholds.storage : ℚ)))
  sourceNodes.flatMap (fun sourceNode =>
    sourceNode.vms.filterMap (fun vm =>
      if isIgnored e vm.id then none
      else
        let targetNode := findBestTargetNode e vm nodeScores
        if targetNode = "" then none
        else
          let gain := calculateResourceGain sourceNode.name targetNode nodeScores
          if gain ≤ 0 then none
          else some { vm := vm, fromNode := sourceNode.name, toNode := targetNode,
                      status := "pending", startTime := now : Migration }))

/-- `executeMigration`: re-fetch nodes for the gain figure, then issue the
migration; failure is recorded in the result. -/
def executeMigration (client : Advanced.Client) (cfg : Cfg.Config) (now : ℚ)
    (migration : Migration) : BalancingResult :=
  let base : BalancingResult :=
    { sourceNode := migration.fromNode, targetNode := migration.toNode,
      vm := migration.vm, reason := "load balancing", resourceGain := 0,
      timestamp := now, success := false, errorMessage := none }
  match client.getNodes with
  | .error err =>
    { base with errorMessage := some ("failed to get nodes for scoring: " ++ err) }
  | .ok currentNodes =>
    let nodeScores := calculateNodeScores cfg currentNodes
    let gain := calculateResourceGain migration.fromNode migration.toNode nodeScores
    if client.migrateOk migration.vm.id migration.fromNode migration.toNode then
      { base with resourceGain := gain, success := true }
    else
      { base with resourceGain := gain, errorMessage := some "migration failed" }

/-- `Balancer.Run`: one threshold balancing cycle. -/
def run (client : Advanced.Client) (cfg : Cfg.Config) (b : Balancer) (now : ℚ)
    (force : Bool) : Except String (List BalancingResult) × Balancer :=
  match client.getNodes with
  | .error e => (.error ("failed to get nodes: " ++ e), b)
  | .ok nodes =>
    let availableNodes := filterAvailableNodes cfg nodes
    if availableNodes.length < 2 then
      (.error "insufficient available nodes for balancing (need at least 2)", b)
    else
      let allVMs := nodes.flatMap (·.vms)
      let e := processVMs allVMs
      if ¬ force ∧ ¬ needsBalancing cfg nodes then
        (.ok [], { b with engine := e })
      else
        let nodeScores := calculateNodeScores cfg availableNodes
        let migrations := findMigrations cfg e now nodes nodeScores
        let results := migrations.map (executeMigration client cfg now)
        (.ok results, { engine := e, lastRun := now })

end Threshold

/-! ## Concrete scenarios used by the claim theorems -/

namespace Scen

open Models Rules Cfg Advanced Threshold

/-- Advanced-balancer configuration: defaults, high aggressiveness, the
optional profiling/capacity stages disabled. -/
def cfgAdv : Cfg.Config :=
  { balancerType := "advanced", aggressiveness := "high",
    thresholds := Cfg.defaultThresholds, weights := Cfg.defaultWeights,
    maintenanceNodes := [], loadProfilesEnabled := false,
    capacityEnabled := false, forecastHours := none }

/-- Threshold-balancer configuration with the defaults. -/
def cfgTh : Cfg.Config :=
  { cfgAdv with balancerType := "threshold", aggressiveness := "low" }

/-- A running VM carrying a `plb_ignore_*` tag, resident on host `a`. -/
def vmIgnored : VM :=
  { id := 100, name := "vm100", node := "a", vmType := "qemu",
    status := "running", cpu := 50, memory := 1024,
    tags := ["plb_ignore_dev"], lastMoved := none }

/-- Overloaded host `a` (cpu 90 > threshold 80) holding `vmIgnored`. -/
def nodeHot : Node :=
  { name := "a", status := "online", cpu := ⟨90⟩, memory := ⟨50⟩,
    storage := ⟨50⟩, vms := [vmIgnored] }

/-- Idle host `b`. -/
def nodeIdle : Node :=
  { name := "b", status := "online", cpu := ⟨10⟩, memory := ⟨10⟩,
    storage := ⟨10⟩, vms := [] }

/-- Client snapshot for the ignore scenario; migrations succeed. -/
def clientIgnore : Advanced.Client :=
  { getNodes := .ok [nodeHot, nodeIdle],
    histData := fun _ _ => .error "unavailable",
    migrateOk := fun _ _ _ => true }

/-- An untagged running VM for the threshold scenario. -/
def mkPlainVM (i : ℕ) : VM :=
  { id := i, name := "vm", node := "n1", vmType := "qemu",
    status := "running", cpu := 10, memory := 1024, tags := [],
    lastMoved := none }

/-- Overloaded host `n1` with six untagged VMs. -/
def nodeSix : Node :=
  { name := "n1", status := "online", cpu := ⟨90⟩, memory := ⟨50⟩,
    storage := ⟨50⟩,
    vms := [mkPlainVM 1, mkPlainVM 2, mkPlainVM 3, mkPlainVM 4,
            mkPlainVM 5, mkPlainVM 6] }

/-- Idle host `n2`. -/
def nodeSpare : Node :=
  { name := "n2", status := "online", cpu := ⟨10⟩, memory := ⟨10⟩,
    storage := ⟨10⟩, vms := [] }

/-- Client snapshot for the six-VM threshold scenario. -/
def clientSix : Advanced.Client :=
  { getNodes := .ok [nodeSix, nodeSpare],
    histData := fun _ _ => .error "unavailable",
    migrateOk := fun _ _ _ => true }

end Scen

namespace Scen

open Models Rules Cfg Advanced

/-- Advanced configuration with the `low` preset. -/
def cfgLow : Cfg.Config := { cfgAdv with aggressiveness := "low" }

/-- Untagged running VM used by the gain witness. -/
def vmWit : VM :=
  { id := 1, name := "w1", node := "a", vmType := "qemu", status := "running",
    cpu := 20, memory := 512, tags := [], lastMoved := none }

/-- Overloaded node holding `vmWit`. -/
def nodeWit : Node :=
  { name := "a", status := "online", cpu := ⟨90⟩, memory := ⟨50⟩,
    storage := ⟨50⟩, vms := [vmWit] }

/-- A fixed score table: target `b` scores 0, source `a` scores 100. -/
def scoresWit : List NodeScore :=
  [{ node := "b", score := 0, cpu := 10, memory := 10, storage := 10 },
   { node := "a", score := 100, cpu := 90, memory := 50, storage := 50 }]

/-- Cooldown-witness history: VM 7 migrated at time 1000. -/
def histC4 : List MigrationHistory :=
  [{ vmId := 7, fromNode := "x", toNode := "a", timestamp := 1000,
     reason := "load_balancing" }]

/-- Running VM 7 (blocked by the history entry). -/
def vmBlk : VM :=
  { id := 7, name := "blk", node := "a", vmType := "qemu", status := "running",
    cpu := 20, memory := 512, tags := [], lastMoved := none }

/-- Running VM 8 (free to move). -/
def vmOk : VM :=
  { id := 8, name := "ok", node := "a", vmType := "qemu", status := "running",
    cpu := 20, memory := 512, tags := [], lastMoved := none }

/-- Overloaded node holding VMs 7 and 8. -/
def nodeC4 : Node :=
  { name := "a", status := "online", cpu := ⟨90⟩, memory := ⟨50⟩,
    storage := ⟨50⟩, vms := [vmBlk, vmOk] }

end Scen

namespace Scen

open Models Rules Cfg Advanced

/-- A second idle host `c`. -/
def nodeIdle2 : Node :=
  { name := "c", status := "online", cpu := ⟨20⟩, memory := ⟨20⟩,
    storage := ⟨20⟩, vms := [] }

/-- Client: two online hosts, none over any threshold. -/
def clientCalm : Advanced.Client :=
  { getNodes := .ok [nodeIdle, nodeIdle2],
    histData := fun _ _ => .error "unavailable",
    migrateOk := fun _ _ _ => true }

/-- Client: a single online host. -/
def clientSolo : Advanced.Client :=
  { getNodes := .ok [nodeIdle],
    histData := fun _ _ => .error "unavailable",
    migrateOk := fun _ _ _ => true }

/-- An offline host. -/
def nodeOff : Node :=
  { name := "off1", status := "offline", cpu := ⟨10⟩, memory := ⟨10⟩,
    storage := ⟨10⟩, vms := [] }

/-- Client: one online and one offline host. -/
def clientOffline : Advanced.Client :=
  { getNodes := .ok [nodeIdle, nodeOff],
    histData := fun _ _ => .error "unavailable",
    migrateOk := fun _ _ _ => true }

end Scen

/-! ## C6/C7/C8 support -/

/-- The migration-cost formula exactly as the claim's sentence states it:
`(cpu_pct + mem_pct)/2`, plus 10 when either percentage exceeds 80. -/
def migrationCostSpec (node : Models.Node) : ℚ :=
  (node.cpu.usage + node.memory.usage) / 2 +
    (if node.cpu.usage > 80 ∨ node.memory.usage > 80 then 10 else 0)

/-- The amended migration-cost formula: the source truncates each
percentage to an integer, divides the sum by 200 (not 2), and adds 10
when either truncated percentage exceeds 80. -/
def migrationCostAmended (node : Models.Node) : ℚ :=
  ((goTrunc node.cpu.usage + goTrunc node.memory.usage : ℤ) : ℚ) / 200 +
    (if goTrunc node.cpu.usage > 80 ∨ goTrunc node.memory.usage > 80 then 10 else 0)

namespace Scen

/-- A fully loaded host (cpu 100%, mem 100%). -/
def nodeFull : Models.Node :=
  { name := "full", status := "online", cpu := ⟨100⟩, memory := ⟨100⟩,
    storage := ⟨50⟩, vms := [] }

end Scen

namespace Scen

open Models

/-- `web1` on host `a`, member of affinity group `web`. -/
def web1 : VM :=
  { id := 201, name := "web1", node := "a", vmType := "qemu",
    status := "running", cpu := 10, memory := 512,
    tags := ["plb_affinity_web"], lastMoved := none }

/-- `web2` on host `b`, member of affinity group `web`. -/
def web2 : VM :=
  { id := 202, name := "web2", node := "b", vmType := "qemu",
    status := "running", cpu := 10, memory := 512,
    tags := ["plb_affinity_web"], lastMoved := none }

/-- Rule engine built from the two `web` VMs. -/
def engineWeb : Rules.Engine := Rules.processVMs [web1, web2]

/-- The `web` affinity group as `ProcessVMs` materializes it. -/
def webGroup : AffinityGroup :=
  { tag := "web", vms := [web1, web2], nodes := ["a", "b"] }

end Scen

/-! ## Plan-structure lemmas for the advanced planner -/

namespace Advanced

open Models Rules Cfg

/-- The inner VM loop keeps the plan at ≤ 5 migrations, and at ≤ 4 when
the cap did not fire. -/
lemma planVMs_length_le (e : Engine) (hist : List MigrationHistory) (now : ℚ)
    (scores : List NodeScore) (agg : AggressivenessConfig) (src : String) :
    ∀ (vms : List VM) (acc : List Migration), acc.length ≤ 4 →
      (planVMs e hist now scores agg src vms acc).1.length ≤ 5 ∧
      ((planVMs e hist now scores agg src vms acc).2 = false →
        (planVMs e hist now scores agg src vms acc).1.length ≤ 4) := by
  intro vms
  induction vms with
  | nil =>
    intro acc hacc
    simp only [planVMs]
    exact ⟨by omega, fun _ => hacc⟩
  | cons vm rest ih =>
    intro acc hacc
    simp only [planVMs]
    split_ifs with h1 h2 h3 h4 h5
    · exact ih acc hacc
    · exact ih acc hacc
    · exact ih acc hacc
    · refine ⟨?_, fun hfalse => by simp at hfalse⟩
      simp only [List.length_append, List.length_cons, List.length_nil]
      omega
    · apply ih
      simp only [List.length_append, List.length_cons, List.length_nil] at h5 ⊢
      omega
    · exact ih acc hacc

/-- The outer node loop keeps the plan at ≤ 5 migrations. -/
lemma planNodes_length_le (e : Engine) (hist : List MigrationHistory) (now : ℚ)
    (scores : List NodeScore) (agg : AggressivenessConfig) :
    ∀ (ns : List Node) (acc : List Migration), acc.length ≤ 4 →
      (planNodes e hist now scores agg ns acc).length ≤ 5 := by
  intro ns
  induction ns with
  | nil =>
    intro acc hacc
    simp only [planNodes]
    omega
  | cons node rest ih =>
    intro acc hacc
    simp only [planNodes]
    rcases hres : planVMs e hist now scores agg node.name node.vms acc with ⟨m, b⟩
    have hlen := planVMs_length_le e hist now scores agg node.name node.vms acc hacc
    rw [hres] at hlen
    cases b
    · simpa using ih m (hlen.2 rfl)
    · simpa using hlen.1

/-- Every migration in the inner-loop result is inherited from the
accumulator or emitted for a VM satisfying all the emission guards. -/
lemma planVMs_mem (e : Engine) (hist : List MigrationHistory) (now : ℚ)
    (scores : List NodeScore) (agg : AggressivenessConfig) (src : String) :
    ∀ (vms : List VM) (acc : List Migration) (m : Migration),
      m ∈ (planVMs e hist now scores agg src vms acc).1 →
      m ∈ acc ∨ ∃ vm, vm ∈ vms ∧ vm.status = "running" ∧
        canMigrateVM e hist now vm src = true ∧
        findBestTargetNode e vm scores src ≠ "" ∧
        ¬ calculateResourceGain src (findBestTargetNode e vm scores src) scores <
          agg.minImprovement ∧
        m = mkMigration vm src (findBestTargetNode e vm scores src) now := by
  intro vms
  induction vms with
  | nil =>
    intro acc m hm
    simp only [planVMs] at hm
    exact Or.inl hm
  | cons vm rest ih =>
    intro acc m hm
    simp only [planVMs] at hm
    split_ifs at hm with h1 h2 h3 h4 h5
    · rcases ih acc m hm with h | ⟨v, hv, hrest⟩
      · exact Or.inl h
      · exact Or.inr ⟨v, List.mem_cons_of_mem _ hv, hrest⟩
    · rcases ih acc m hm with h | ⟨v, hv, hrest⟩
      · exact Or.inl h
      · exact Or.inr ⟨v, List.mem_cons_of_mem _ hv, hrest⟩
    · rcases ih acc m hm with h | ⟨v, hv, hrest⟩
      · exact Or.inl h
      · exact Or.inr ⟨v, List.mem_cons_of_mem _ hv, hrest⟩
    · rcases List.mem_append.mp hm with h | h
      · exact Or.inl h
      · exact Or.inr ⟨vm, List.mem_cons_self _ _, by simpa using h1, h2, h3, h4,
          List.mem_singleton.mp h⟩
    · rcases ih _ m hm with h | ⟨v, hv, hrest⟩
      · rcases List.mem_append.mp h with h' | h'
        · exact Or.inl h'
        · exact Or.inr ⟨vm, List.mem_cons_self _ _, by simpa using h1, h2, h3, h4,
            List.mem_singleton.mp h'⟩
      · exact Or.inr ⟨v, List.mem_cons_of_mem _ hv, hrest⟩
    · rcases ih acc m hm with h | ⟨v, hv, hrest⟩
      · exact Or.inl h
      · exact Or.inr ⟨v, List.mem_cons_of_mem _ hv, hrest⟩

/-- Every migration in the outer-loop result is inherited or emitted for
some listed node's VM. -/
lemma planNodes_mem (e : Engine) (hist : List MigrationHistory) (now : ℚ)
    (scores : List NodeScore) (agg : AggressivenessConfig) :
    ∀ (ns : List Node) (acc : List Migration) (m : Migration),
      m ∈ planNodes e hist now scores agg ns acc →
      m ∈ acc ∨ ∃ node, node ∈ ns ∧ ∃ vm, vm ∈ node.vms ∧
        vm.status = "running" ∧
        canMigrateVM e hist now vm node.name = true ∧
        findBestTargetNode e vm scores node.name ≠ "" ∧
        ¬ calculateResourceGain node.name (findBestTargetNode e vm scores node.name)
          scores < agg.minImprovement ∧
        m = mkMigration vm node.name (findBestTargetNode e vm scores node.name) now := by
  intro ns
  induction ns with
  | nil =>
    intro acc m hm
    simp only [planNodes] at hm
    exact Or.inl hm
  | cons node rest ih =>
    intro acc m hm
    simp only [planNodes] at hm
    rcases hres : planVMs e hist now scores agg node.name node.vms acc with ⟨l, b⟩
    rw [hres] at hm
    have hv := planVMs_mem e hist now scores agg node.name node.vms acc m
    rw [hres] at hv
    cases b with
    | true =>
      simp only at hm
      rcases hv hm with h | ⟨vm, hvm, hc⟩
      · exact Or.inl h
      · exact Or.inr ⟨node, List.mem_cons_self _ _, vm, hvm, hc⟩
    | false =>
      simp only at hm
      rcases ih l m hm with h | ⟨nd, hnd, hrest⟩
      · rcases hv h with h' | ⟨vm, hvm, hc⟩
        · exact Or.inl h'
        · exact Or.inr ⟨node, List.mem_cons_self _ _, vm, hvm, hc⟩
      · exact Or.inr ⟨nd, List.mem_cons_of_mem _ hnd, hrest⟩

/-- Emitted migrations come from overloaded listed nodes and satisfy all
the emission guards. -/
lemma findOptimalMigrations_mem (cfg : Cfg.Config) (e : Engine)
    (hist : List MigrationHistory) (now : ℚ) (nodes : List Node)
    (scores : List NodeScore) (agg : AggressivenessConfig) (m : Migration)
    (hm : m ∈ findOptimalMigrations cfg e hist now nodes scores agg) :
    ∃ node, node ∈ nodes ∧ isOverloaded cfg node = true ∧ ∃ vm, vm ∈ node.vms ∧
      vm.status = "running" ∧
      canMigrateVM e hist now vm node.name = true ∧
      findBestTargetNode e vm scores node.name ≠ "" ∧
      ¬ calculateResourceGain node.name (findBestTargetNode e vm scores node.name)
        scores < agg.minImprovement ∧
      m = mkMigration vm node.name (findBestTargetNode e vm scores node.name) now := by
  rcases planNodes_mem e hist now scores agg _ _ m hm with h | ⟨node, hnode, hrest⟩
  · simp at h
  · rcases List.mem_filter.mp hnode with ⟨hn1, hn2⟩
    exact ⟨node, hn1, hn2, hrest⟩

end Advanced

/-! ## C3/C4 support -/

namespace Advanced

open Models Rules Cfg

/-- A VM that passes `canMigrateVM` has no `LastMoved` timestamp within
the last hour. -/
lemma canMigrateVM_blocks_lastMoved {e : Engine} {hist : List MigrationHistory}
    {now : ℚ} {vm : VM} {src : String} {t : ℚ}
    (hc : canMigrateVM e hist now vm src = true) (hlm : vm.lastMoved = some t) :
    t ≤ now - 3600 := by
  simp only [canMigrateVM, hlm] at hc
  by_cases h : t > now - 3600
  · simp [h] at hc
  · exact le_of_not_lt h

/-- A VM that passes `canMigrateVM` has no migration-history entry within
the last hour. -/
lemma canMigrateVM_blocks_hist {e : Engine} {hist : List MigrationHistory}
    {now : ℚ} {vm : VM} {src : String} {h : MigrationHistory}
    (hc : canMigrateVM e hist now vm src = true) (hh : h ∈ hist)
    (hid : h.vmId = vm.id) : h.timestamp ≤ now - 3600 := by
  simp [canMigrateVM] at hc
  exact hc.2.1 h hh hid

end Advanced

namespace Advanced

/-- The upper clamp of the percentile index written as a `min`. -/
lemma clamp_eq_min (n i : ℕ) (hn : 1 ≤ n) :
    (if i ≥ n then n - 1 else i) = min (n - 1) i := by
  split <;> omega

/-- `pctIdx` is the claim's `round((n−1)·p)` clamped to `[0, n−1]`. -/
lemma pctIdx_eq_round (n : ℕ) (p : ℚ) (hn : 1 ≤ n) :
    pctIdx n p = min (n - 1) (round (((n : ℚ) - 1) * p)).toNat := by
  have hr : round (((n : ℚ) - 1) * p) = ⌊((n : ℚ) - 1) * p + 0.5⌋ := by
    rw [round_eq]
    norm_num
  rw [pctIdx, hr, clamp_eq_min _ _ hn]

/-- `pctIdx` stays within the sorted array. -/
lemma pctIdx_le (n : ℕ) (p : ℚ) (hn : 1 ≤ n) : pctIdx n p ≤ n - 1 := by
  rw [pctIdx]
  split <;> omega

/-- `pctIdx` is monotone in the percentile. -/
lemma pctIdx_mono (n : ℕ) {p q : ℚ} (hn : 1 ≤ n) (hpq : p ≤ q) :
    pctIdx n p ≤ pctIdx n q := by
  rw [pctIdx, pctIdx, clamp_eq_min _ _ hn, clamp_eq_min _ _ hn]
  refine min_le_min le_rfl (Int.toNat_le_toNat (Int.floor_le_floor ?_))
  have hn' : (0 : ℚ) ≤ (n : ℚ) - 1 := by
    have : (1 : ℚ) ≤ (n : ℚ) := by exact_mod_cast hn
    linarith
  nlinarith

/-- `getD` on a `(· ≤ ·)`-sorted list is monotone in the index (inside
the list). -/
lemma sorted_getD_mono {l : List ℚ} (hs : List.Sorted (· ≤ ·) l) {i j : ℕ}
    (hij : i ≤ j) (hj : j < l.length) : l.getD i 0 ≤ l.getD j 0 := by
  have hi : i < l.length := lt_of_le_of_lt hij hj
  rw [List.getD_eq_get l 0 hi, List.getD_eq_get l 0 hj]
  exact List.Sorted.rel_get_of_le hs (by exact hij)

end Advanced

namespace Advanced

/-- The five percentile fields of a non-empty computation, written via
the sorted array and `pctIdx`. -/
lemma calculatePercentiles_fields (values : List ℚ) (h : values.isEmpty = false) :
    (calculatePercentiles values).p50 =
      (List.insertionSort (· ≤ ·) values).getD
        (pctIdx (List.insertionSort (· ≤ ·) values).length 0.5) 0 ∧
    (calculatePercentiles values).p90 =
      (List.insertionSort (· ≤ ·) values).getD
        (pctIdx (List.insertionSort (· ≤ ·) values).length 0.9) 0 ∧
    (calculatePercentiles values).p95 =
      (List.insertionSort (· ≤ ·) values).getD
        (pctIdx (List.insertionSort (· ≤ ·) values).length 0.95) 0 ∧
    (calculatePercentiles values).p99 =
      (List.insertionSort (· ≤ ·) values).getD
        (pctIdx (List.insertionSort (· ≤ ·) values).length 0.99) 0 ∧
    (calculatePercentiles values).minP90 =
      (List.insertionSort (· ≤ ·) values).getD
        (pctIdx (List.insertionSort (· ≤ ·) values).length 0.1) 0 := by
  refine ⟨?_, ?_, ?_, ?_, ?_⟩ <;> simp [calculatePercentiles, h]

end Advanced

/-! ## Claim theorems -/

open Models Rules Cfg

/-- **C1** (code bug).  The advanced balancer never feeds the VM snapshot
to its rules engine (`ProcessVMs` is only called by the threshold
balancer), so its `ValidatePlacement` checks run against an empty engine.
On a snapshot whose only movable VM carries a `plb_ignore_*` tag, the
advanced cycle migrates that VM even though `validate_placement` built
from the pre-cycle snapshot marks it ignored and rejects the placement. -/
theorem advanced_run_migrates_ignored_vm :
    Except.map (List.map (fun r => (r.vm.id, r.sourceNode, r.targetNode, r.success)))
      (Advanced.run Scen.clientIgnore Scen.cfgAdv Advanced.newAdvancedBalancer
        1000000 false).1 = Except.ok [(100, "a", "b", true)] ∧
    Rules.isIgnored
      (Rules.processVMs (([Scen.nodeHot, Scen.nodeIdle]).flatMap (·.vms)))
      Scen.vmIgnored.id = true ∧
    Rules.validatePlacement
      (Rules.processVMs (([Scen.nodeHot, Scen.nodeIdle]).flatMap (·.vms)))
      Scen.vmIgnored "b" = .error (.ignored "vm100") := by
  refine ⟨?_, ?_, ?_⟩ <;> decide

/-- **C2** (amended): the advanced planner emits at most 5 migrations per
cycle; the threshold balancer's plan is not bounded. -/
theorem advanced_plan_at_most_five (cfg : Cfg.Config) (e : Engine)
    (hist : List MigrationHistory) (now : ℚ) (nodes : List Node)
    (scores : List NodeScore) (agg : AggressivenessConfig) :
    (Advanced.findOptimalMigrations cfg e hist now nodes scores agg).length ≤ 5 :=
  Advanced.planNodes_length_le e hist now scores agg _ [] (by simp)

/-- **C2** counterexample: a threshold-balancer cycle (an overloaded host
with six movable VMs and one idle target) produces a 6-migration plan,
so the claimed bound `|P| ≤ 5` fails for `balancer_type = threshold`. -/
theorem threshold_plan_six_migrations :
    Except.map List.length
      (Threshold.run Scen.clientSix Scen.cfgTh Threshold.newBalancer 500 false).1 =
      Except.ok 6 := by
  decide

/-- **C3**: every migration emitted by the advanced planner has
`score(src) − score(dst) ≥ aggr.min_improvement` over the score table
computed once at the start of the cycle, and the preset minima are
15 / 10 / 5 for low / medium / high. -/
theorem advanced_migration_gain_ge_min_improvement
    (cfg : Cfg.Config) (e : Engine) (hist : List MigrationHistory) (now : ℚ)
    (nodes : List Node) (scores : List NodeScore) (s : String)
    (hs : s = "low" ∨ s = "medium" ∨ s = "high") (m : Migration)
    (hm : m ∈ Advanced.findOptimalMigrations cfg e hist now nodes scores
      (Cfg.getAggressivenessConfig s)) :
    (Cfg.getAggressivenessConfig s).minImprovement =
      (if s = "low" then 15 else if s = "medium" then 10 else 5) ∧
    ∃ srcScore tgtScore,
      Advanced.scoreLookup scores m.fromNode = some srcScore ∧
      Advanced.scoreLookup scores m.toNode = some tgtScore ∧
      (Cfg.getAggressivenessConfig s).minImprovement ≤ srcScore - tgtScore := by
  have hminpos : 0 < (Cfg.getAggressivenessConfig s).minImprovement := by
    rcases hs with h | h | h <;> simp [Cfg.getAggressivenessConfig, h]
  have hmin : (Cfg.getAggressivenessConfig s).minImprovement =
      (if s = "low" then 15 else if s = "medium" then 10 else 5) := by
    rcases hs with h | h | h <;> simp [Cfg.getAggressivenessConfig, h]
  refine ⟨hmin, ?_⟩
  rcases Advanced.findOptimalMigrations_mem cfg e hist now nodes scores _ m hm with
    ⟨node, _, _, vm, _, _, _, _, hgain, hmeq⟩
  have hfrom : m.fromNode = node.name := by rw [hmeq]; rfl
  have hto : m.toNode = Advanced.findBestTargetNode e vm scores node.name := by
    rw [hmeq]; rfl
  rw [not_lt] at hgain
  rcases hsrc : Advanced.scoreLookup scores node.name with _ | srcScore
  · rw [Advanced.calculateResourceGain, hsrc] at hgain
    exact absurd (lt_of_lt_of_le hminpos hgain) (lt_irrefl 0)
  · rcases htgt : Advanced.scoreLookup scores
        (Advanced.findBestTargetNode e vm scores node.name) with _ | tgtScore
    · rw [Advanced.calculateResourceGain, hsrc, htgt] at hgain
      exact absurd (lt_of_lt_of_le hminpos hgain) (lt_irrefl 0)
    · refine ⟨srcScore, tgtScore, by rw [hfrom]; exact hsrc, by rw [hto]; exact htgt, ?_⟩
      rw [Advanced.calculateResourceGain, hsrc, htgt] at hgain
      exact hgain

/-- Witness for C3: a concrete cycle (`low` preset) emitting one
migration from `a` (score 100) to `b` (score 0). -/
theorem advanced_migration_gain_witness :
    (Cfg.getAggressivenessConfig "low").minImprovement =
      (if "low" = "low" then 15 else if "low" = "medium" then 10 else 5) ∧
    ∃ srcScore tgtScore,
      Advanced.scoreLookup Scen.scoresWit
        (Advanced.mkMigration Scen.vmWit "a" "b" 0).fromNode = some srcScore ∧
      Advanced.scoreLookup Scen.scoresWit
        (Advanced.mkMigration Scen.vmWit "a" "b" 0).toNode = some tgtScore ∧
      (Cfg.getAggressivenessConfig "low").minImprovement ≤ srcScore - tgtScore :=
  advanced_migration_gain_ge_min_improvement Scen.cfgLow Rules.newEngine [] 0
    [Scen.nodeWit] Scen.scoresWit "low" (Or.inl rfl)
    (Advanced.mkMigration Scen.vmWit "a" "b" 0) (by decide)

/-- **C4**: a VM with a successful migration recorded at time `t` (in the
in-memory history or in its own `LastMoved` stamp) appears in no advanced
plan computed at a time `now` with `t < now < t + 1h`. -/
theorem advanced_cooldown_respected
    (cfg : Cfg.Config) (e : Engine) (hist : List MigrationHistory) (now : ℚ)
    (nodes : List Node) (scores : List NodeScore) (agg : AggressivenessConfig)
    (v : ℕ) (t : ℚ)
    (huniq : ∀ n1 ∈ nodes, ∀ n2 ∈ nodes, ∀ vm1 ∈ n1.vms, ∀ vm2 ∈ n2.vms,
      vm1.id = vm2.id → vm1 = vm2)
    (hrec : (∃ h ∈ hist, h.vmId = v ∧ h.timestamp = t) ∨
            (∃ n ∈ nodes, ∃ vm ∈ n.vms, vm.id = v ∧ vm.lastMoved = some t))
    (_h1 : t < now) (h2 : now < t + 3600)
    (m : Migration)
    (hm : m ∈ Advanced.findOptimalMigrations cfg e hist now nodes scores agg) :
    m.vm.id ≠ v := by
  intro heq
  rcases Advanced.findOptimalMigrations_mem cfg e hist now nodes scores agg m hm with
    ⟨node, hnode, _, vm, hvm, _, hcan, _, _, hmeq⟩
  have hmvm : m.vm = vm := by rw [hmeq]; rfl
  have hvmid : vm.id = v := by rw [← hmvm]; exact heq
  rcases hrec with ⟨h, hh, hid, hts⟩ | ⟨n, hn, vm', hvm', hid', hlm'⟩
  · have hle := Advanced.canMigrateVM_blocks_hist hcan hh (by rw [hid, hvmid])
    rw [hts] at hle
    linarith
  · have : vm' = vm := huniq n hn node hnode vm' hvm' vm hvm (by rw [hid', hvmid])
    have hle := Advanced.canMigrateVM_blocks_lastMoved hcan (by rw [← this]; exact hlm')
    linarith

/-- Witness for C4: VM 7 migrated at time 1000; the plan computed at time
1500 moves only VM 8. -/
theorem advanced_cooldown_witness :
    (Advanced.mkMigration Scen.vmOk "a" "b" 1500).vm.id ≠ 7 :=
  advanced_cooldown_respected Scen.cfgLow Rules.newEngine Scen.histC4 1500
    [Scen.nodeC4] Scen.scoresWit (Cfg.getAggressivenessConfig "low") 7 1000
    (by decide) (Or.inl (by decide)) (by norm_num) (by norm_num)
    (Advanced.mkMigration Scen.vmOk "a" "b" 1500) (by decide)

/-! ## C5 / C10 -/

/-- **C5**: with `force = false` and no available (online, non-maintenance)
host over any configured threshold, the advanced cycle returns the empty
result list (and the shipped defaults are cpu 80 / mem 85 / storage 90). -/
theorem advanced_no_trigger_empty_plan
    (client : Advanced.Client) (cfg : Cfg.Config) (b : Advanced.AdvancedBalancer)
    (now : ℚ) (nodes : List Node)
    (hget : client.getNodes = .ok nodes)
    (hlen : 2 ≤ (Advanced.filterAvailableNodes cfg nodes).length)
    (hth : ∀ n ∈ Advanced.filterAvailableNodes cfg nodes,
      n.cpu.usage ≤ (cfg.thresholds.cpu : ℚ) ∧
      n.memory.usage ≤ (cfg.thresholds.memory : ℚ) ∧
      n.storage.usage ≤ (cfg.thresholds.storage : ℚ)) :
    (Advanced.run client cfg b now false).1 = .ok [] ∧
    Cfg.defaultThresholds = { cpu := 80, memory := 85, storage := 90 } := by
  have hnb : Advanced.needsBalancing cfg (Advanced.filterAvailableNodes cfg nodes) = false := by
    simp only [Advanced.needsBalancing, List.any_eq_false, decide_eq_true_eq]
    intro n hn
    rcases hth n hn with ⟨hc, hm, hs⟩
    push_neg
    exact ⟨hc, hm, hs⟩
  refine ⟨?_, rfl⟩
  simp only [Advanced.run, hget]
  rw [if_neg (by omega)]
  simp [hnb]

/-- Witness for C5: two calm online hosts, defaults, `force = false`. -/
theorem advanced_no_trigger_witness :
    (Advanced.run Scen.clientCalm Scen.cfgAdv Advanced.newAdvancedBalancer
      100 false).1 = .ok [] ∧
    Cfg.defaultThresholds = { cpu := 80, memory := 85, storage := 90 } :=
  advanced_no_trigger_empty_plan Scen.clientCalm Scen.cfgAdv
    Advanced.newAdvancedBalancer 100 [Scen.nodeIdle, Scen.nodeIdle2]
    rfl (by decide) (by decide)

/-- **C10** (amended): with fewer than 2 nodes surviving its own
availability filter, a cycle returns an error without touching the
balancer state; the advanced filter demands online non-maintenance
nodes, while the threshold filter checks only maintenance (offline nodes
still count for it). -/
theorem insufficient_nodes_error_amended
    (client : Advanced.Client) (cfg : Cfg.Config) (ba : Advanced.AdvancedBalancer)
    (bt : Threshold.Balancer) (now : ℚ) (force : Bool) (nodes : List Node)
    (hget : client.getNodes = .ok nodes) :
    ((Advanced.filterAvailableNodes cfg nodes).length < 2 →
      Advanced.run client cfg ba now force =
        (.error "insufficient available nodes for balancing", ba)) ∧
    ((Threshold.filterAvailableNodes cfg nodes).length < 2 →
      Threshold.run client cfg bt now force =
        (.error "insufficient available nodes for balancing (need at least 2)", bt)) := by
  constructor
  · intro h
    simp only [Advanced.run, hget]
    rw [if_pos h]
  · intro h
    simp only [Threshold.run, hget]
    rw [if_pos h]

/-- Witness for C10: a single online host makes both balancers fail with
the insufficient-nodes error and leave their state untouched. -/
theorem insufficient_nodes_error_witness :
    Advanced.run Scen.clientSolo Scen.cfgAdv Advanced.newAdvancedBalancer 5 true =
      (.error "insufficient available nodes for balancing",
        Advanced.newAdvancedBalancer) ∧
    Threshold.run Scen.clientSolo Scen.cfgTh Threshold.newBalancer 5 true =
      (.error "insufficient available nodes for balancing (need at least 2)",
        Threshold.newBalancer) :=
  ⟨(insufficient_nodes_error_amended Scen.clientSolo Scen.cfgAdv
      Advanced.newAdvancedBalancer Threshold.newBalancer 5 true [Scen.nodeIdle]
      rfl).1 (by decide),
   (insufficient_nodes_error_amended Scen.clientSolo Scen.cfgTh
      Advanced.newAdvancedBalancer Threshold.newBalancer 5 true [Scen.nodeIdle]
      rfl).2 (by decide)⟩

/-- **C10** counterexample: on a snapshot with one online and one offline
host (so fewer than 2 online non-maintenance nodes remain), the threshold
balancer does not return an error — its filter never looks at the node
status, and with nothing overloaded the cycle answers `ok []`. -/
theorem threshold_run_offline_nodes_no_error :
    (Advanced.filterAvailableNodes Scen.cfgTh [Scen.nodeIdle, Scen.nodeOff]).length = 1 ∧
    (Threshold.run Scen.clientOffline Scen.cfgTh Threshold.newBalancer 5 false).1 =
      .ok [] := by
  refine ⟨?_, ?_⟩ <;> decide

/-- **C8** counterexample: on a host at cpu 100% / mem 100% the source
computes a migration cost of 11 = 200/200 + 10, while the claim's formula
`(cpu+mem)/2 (+10)` gives 110. -/
theorem migration_cost_formula_counterexample :
    Advanced.calculateMigrationCost Scen.nodeFull = 11 ∧
    migrationCostSpec Scen.nodeFull = 110 ∧
    Advanced.calculateMigrationCost Scen.nodeFull ≠ migrationCostSpec Scen.nodeFull := by
  refine ⟨?_, ?_, ?_⟩ <;> decide

/-- **C8** (amended): the migration-cost component equals
`(trunc(cpu)+trunc(mem))/200`, plus 10 when a truncated percentage
exceeds 80. -/
theorem migration_cost_amended_formula (node : Models.Node) :
    Advanced.calculateMigrationCost node = migrationCostAmended node := by
  simp only [Advanced.calculateMigrationCost, migrationCostAmended]
  split_ifs with h
  · rfl
  · rw [add_zero]

/-- **C6**: for a non-empty sample array the percentile computation
returns the sorted element at index `round((n−1)·p)` clamped to
`[0, n−1]` (with `min_p90` at p = 0.10), and on the samples
`[10,…,100]` this gives p50 = 60, p90 = 90, p95 = 100, p99 = 100. -/
theorem percentile_index_formula (values : List ℚ) (h : values ≠ []) :
    ((Advanced.calculatePercentiles values).p50 =
        (List.insertionSort (· ≤ ·) values).getD
          (min (values.length - 1) (round (((values.length : ℚ) - 1) * 0.5)).toNat) 0 ∧
     (Advanced.calculatePercentiles values).p90 =
        (List.insertionSort (· ≤ ·) values).getD
          (min (values.length - 1) (round (((values.length : ℚ) - 1) * 0.9)).toNat) 0 ∧
     (Advanced.calculatePercentiles values).p95 =
        (List.insertionSort (· ≤ ·) values).getD
          (min (values.length - 1) (round (((values.length : ℚ) - 1) * 0.95)).toNat) 0 ∧
     (Advanced.calculatePercentiles values).p99 =
        (List.insertionSort (· ≤ ·) values).getD
          (min (values.length - 1) (round (((values.length : ℚ) - 1) * 0.99)).toNat) 0 ∧
     (Advanced.calculatePercentiles values).minP90 =
        (List.insertionSort (· ≤ ·) values).getD
          (min (values.length - 1) (round (((values.length : ℚ) - 1) * 0.1)).toNat) 0) ∧
    ((Advanced.calculatePercentiles [10,20,30,40,50,60,70,80,90,100]).p50 = 60 ∧
     (Advanced.calculatePercentiles [10,20,30,40,50,60,70,80,90,100]).p90 = 90 ∧
     (Advanced.calculatePercentiles [10,20,30,40,50,60,70,80,90,100]).p95 = 100 ∧
     (Advanced.calculatePercentiles [10,20,30,40,50,60,70,80,90,100]).p99 = 100) := by
  constructor
  · have hie : values.isEmpty = false := by
      cases values
      · exact absurd rfl h
      · rfl
    have hn : 1 ≤ values.length := List.length_pos.mpr h
    have hlen : (List.insertionSort (· ≤ ·) values).length = values.length :=
      List.length_insertionSort _ values
    obtain ⟨h50, h90, h95, h99, h10⟩ := Advanced.calculatePercentiles_fields values hie
    rw [hlen] at h50 h90 h95 h99 h10
    rw [Advanced.pctIdx_eq_round _ _ hn] at h50 h90 h95 h99 h10
    exact ⟨h50, h90, h95, h99, h10⟩
  · refine ⟨?_, ?_, ?_, ?_⟩ <;> decide

/-- Witness for C6: the whole statement evaluated at the samples
`[10,…,100]`. -/
theorem percentile_index_formula_witness :
    ((Advanced.calculatePercentiles [10,20,30,40,50,60,70,80,90,100]).p50 =
        (List.insertionSort (· ≤ ·) [10,20,30,40,50,60,70,80,90,100]).getD
          (min 9 (round (((10 : ℚ) - 1) * 0.5)).toNat) 0) ∧
    (Advanced.calculatePercentiles [10,20,30,40,50,60,70,80,90,100]).p99 = 100 := by
  have := percentile_index_formula [10,20,30,40,50,60,70,80,90,100] (by decide)
  exact ⟨this.1.1, this.2.2.2.2⟩

/-- **C7**: for a non-empty sample array the computed percentiles satisfy
`p50 ≤ p90 ≤ p95 ≤ p99 ≤ max(samples)` and `min(samples) ≤ min_p90`. -/
theorem percentile_sanity (values : List ℚ) (h : values ≠ []) (M m : ℚ)
    (hM : values.maximum = (M : WithBot ℚ)) (hm : values.minimum = (m : WithTop ℚ)) :
    (Advanced.calculatePercentiles values).p50 ≤ (Advanced.calculatePercentiles values).p90 ∧
    (Advanced.calculatePercentiles values).p90 ≤ (Advanced.calculatePercentiles values).p95 ∧
    (Advanced.calculatePercentiles values).p95 ≤ (Advanced.calculatePercentiles values).p99 ∧
    (Advanced.calculatePercentiles values).p99 ≤ M ∧
    m ≤ (Advanced.calculatePercentiles values).minP90 := by
  have hie : values.isEmpty = false := by
    cases values
    · exact absurd rfl h
    · rfl
  have hsorted : List.Sorted (· ≤ ·) (List.insertionSort (· ≤ ·) values) :=
    List.sorted_insertionSort _ _
  have hperm : List.Perm (List.insertionSort (· ≤ ·) values) values :=
    List.perm_insertionSort _ _
  have hn : 1 ≤ values.length := List.length_pos.mpr h
  have hlen : (List.insertionSort (· ≤ ·) values).length = values.length :=
    List.length_insertionSort _ values
  have hns : 1 ≤ (List.insertionSort (· ≤ ·) values).length := by omega
  obtain ⟨h50, h90, h95, h99, h10⟩ := Advanced.calculatePercentiles_fields values hie
  have hidx : ∀ p : ℚ, Advanced.pctIdx (List.insertionSort (· ≤ ·) values).length p <
      (List.insertionSort (· ≤ ·) values).length := by
    intro p
    have := Advanced.pctIdx_le (List.insertionSort (· ≤ ·) values).length p hns
    omega
  have hmono : ∀ {p q : ℚ}, p ≤ q →
      (List.insertionSort (· ≤ ·) values).getD
        (Advanced.pctIdx (List.insertionSort (· ≤ ·) values).length p) 0 ≤
      (List.insertionSort (· ≤ ·) values).getD
        (Advanced.pctIdx (List.insertionSort (· ≤ ·) values).length q) 0 := by
    intro p q hpq
    exact Advanced.sorted_getD_mono hsorted
      (Advanced.pctIdx_mono _ hns hpq) (hidx q)
  have hmem : ∀ p : ℚ,
      (List.insertionSort (· ≤ ·) values).getD
        (Advanced.pctIdx (List.insertionSort (· ≤ ·) values).length p) 0 ∈ values := by
    intro p
    rw [List.getD_eq_get _ 0 (hidx p)]
    exact hperm.subset (List.get_mem _ _ _)
  refine ⟨?_, ?_, ?_, ?_, ?_⟩
  · rw [h50, h90]; exact hmono (by norm_num)
  · rw [h90, h95]; exact hmono (by norm_num)
  · rw [h95, h99]; exact hmono (by norm_num)
  · rw [h99]; exact List.le_maximum_of_mem (hmem 0.99) hM
  · rw [h10]; exact List.minimum_le_of_mem (hmem 0.1) hm

/-- Witness for C7: the sanity chain evaluated at the samples `[10,…,100]`
(max 100, min 10). -/
theorem percentile_sanity_witness :
    (Advanced.calculatePercentiles [10,20,30,40,50,60,70,80,90,100]).p50 ≤
      (Advanced.calculatePercentiles [10,20,30,40,50,60,70,80,90,100]).p90 ∧
    (Advanced.calculatePercentiles [10,20,30,40,50,60,70,80,90,100]).p90 ≤
      (Advanced.calculatePercentiles [10,20,30,40,50,60,70,80,90,100]).p95 ∧
    (Advanced.calculatePercentiles [10,20,30,40,50,60,70,80,90,100]).p95 ≤
      (Advanced.calculatePercentiles [10,20,30,40,50,60,70,80,90,100]).p99 ∧
    (Advanced.calculatePercentiles [10,20,30,40,50,60,70,80,90,100]).p99 ≤ 100 ∧
    (10 : ℚ) ≤ (Advanced.calculatePercentiles [10,20,30,40,50,60,70,80,90,100]).minP90 :=
  percentile_sanity [10,20,30,40,50,60,70,80,90,100] (by decide) 100 10
    (by decide) (by decide)

/-! ## C9 -/

/-- **C9**: for a VM in exactly one affinity group G (the engine checks
only the first group containing the VM, so a VM in several groups is
outside the claim), and with the ignore / pin / anti-affinity rules not
objecting: placement on t succeeds when another member of G resides on t;
it fails with the affinity error when some member resides elsewhere and
none on t; and the affinity rule passes when the VM is the group's only
member. -/
theorem affinity_placement_cases
    (e : Rules.Engine) (vm : Models.VM) (t : String) (G : Models.AffinityGroup)
    (hG : G ∈ e.affinityGroups)
    (hmem : G.vms.any (·.id = vm.id) = true)
    (huniq : ∀ G' ∈ e.affinityGroups, G'.vms.any (·.id = vm.id) = true → G' = G)
    (hnotIgn : Rules.isIgnored e vm.id = false)
    (hpin : Rules.validatePinningRules e vm t = .ok ())
    (hanti : Rules.validateAntiAffinityRules e vm t = .ok ()) :
    ((∃ o ∈ G.vms, o.id ≠ vm.id ∧ o.node = t) →
      Rules.validatePlacement e vm t = .ok ()) ∧
    (((∃ o ∈ G.vms, o.id ≠ vm.id ∧ o.node ≠ t) ∧
      (∀ o ∈ G.vms, o.id ≠ vm.id → o.node ≠ t)) →
      Rules.validatePlacement e vm t = .error (.affinityBroken vm.name G.tag t)) ∧
    ((∀ o ∈ G.vms, o.id = vm.id) →
      Rules.validateAffinityRules e vm t = .ok ()) := by
  have hfind : e.affinityGroups.find? (fun g => g.vms.any (·.id = vm.id)) = some G := by
    have hsome : (e.affinityGroups.find? (fun g => g.vms.any (·.id = vm.id))).isSome := by
      rw [List.find?_isSome]
      exact ⟨G, hG, hmem⟩
    rcases Option.isSome_iff_exists.mp hsome with ⟨g, hg⟩
    have h1 := List.find?_some hg
    have h2 := List.mem_of_find?_eq_some hg
    rw [hg, huniq g h2 h1]
  have haffG : Rules.validateAffinityRules e vm t =
      Rules.checkAffinityConstraints vm t G := by
    rw [Rules.validateAffinityRules, hfind]
  refine ⟨?_, ?_, ?_⟩
  · intro ⟨o, ho, hne, hnode⟩
    have hany : G.vms.any (fun o => o.id ≠ vm.id ∧ o.node = t) = true :=
      List.any_eq_true.mpr ⟨o, ho, by simp [hne, hnode]⟩
    have hcheck : Rules.checkAffinityConstraints vm t G = .ok () := by
      rw [Rules.checkAffinityConstraints, if_pos hany]
    rw [Rules.validatePlacement, Rules.validateIgnoreRules, if_neg (by simp [hnotIgn]),
      hpin, haffG, hcheck, hanti]
  · intro ⟨⟨o, ho, hne, hnode⟩, hnone⟩
    have hany1 : G.vms.any (fun o => o.id ≠ vm.id ∧ o.node = t) = false := by
      rw [List.any_eq_false]
      intro x hx
      simp only [decide_eq_true_eq, not_and]
      intro hxid
      exact hnone x hx hxid
    have hany2 : G.vms.any (fun o => o.id ≠ vm.id ∧ o.node ≠ t) = true :=
      List.any_eq_true.mpr ⟨o, ho, by simp [hne, hnode]⟩
    have hcheck : Rules.checkAffinityConstraints vm t G =
        .error (.affinityBroken vm.name G.tag t) := by
      rw [Rules.checkAffinityConstraints, if_neg (by rw [hany1]; simp), if_pos hany2]
    rw [Rules.validatePlacement, Rules.validateIgnoreRules, if_neg (by simp [hnotIgn]),
      hpin, haffG, hcheck]
  · intro hsolo
    have hany1 : G.vms.any (fun o => o.id ≠ vm.id ∧ o.node = t) = false := by
      rw [List.any_eq_false]
      intro x hx
      simp [hsolo x hx]
    have hany2 : G.vms.any (fun o => o.id ≠ vm.id ∧ o.node ≠ t) = false := by
      rw [List.any_eq_false]
      intro x hx
      simp [hsolo x hx]
    rw [haffG, Rules.checkAffinityConstraints, if_neg (by rw [hany1]; simp),
      if_neg (by rw [hany2]; simp)]

/-- Witness for C9: the two-member `web` group (`web1@a`, `web2@b`);
placing `web1` on `b` — where `web2` resides — passes the full
placement validation. -/
theorem affinity_placement_witness :
    ((∃ o ∈ Scen.webGroup.vms, o.id ≠ Scen.web1.id ∧ o.node = "b") →
      Rules.validatePlacement Scen.engineWeb Scen.web1 "b" = .ok ()) ∧
    (((∃ o ∈ Scen.webGroup.vms, o.id ≠ Scen.web1.id ∧ o.node ≠ "b") ∧
      (∀ o ∈ Scen.webGroup.vms, o.id ≠ Scen.web1.id → o.node ≠ "b")) →
      Rules.validatePlacement Scen.engineWeb Scen.web1 "b" =
        .error (.affinityBroken Scen.web1.name Scen.webGroup.tag "b")) ∧
    ((∀ o ∈ Scen.webGroup.vms, o.id = Scen.web1.id) →
      Rules.validateAffinityRules Scen.engineWeb Scen.web1 "b" = .ok ()) :=
  affinity_placement_cases Scen.engineWeb Scen.web1 "b" Scen.webGroup
    (by decide) (by decide) (by decide) (by decide) (by decide) (by decide)
